import Mathlib

/-!
Verification of the pause-timer content script (timestamp/percentage
conversion utilities and the polling pause scheduler).

The JavaScript source is embedded shallowly:
* numbers that can only be finite here are `ℚ` (durations, positions);
  where JavaScript `NaN` is reachable, `JSNum` adds it explicitly;
* `String.prototype.split(":")` is `jsSplitColon` on the character list;
* `setInterval` / `clearInterval` are modelled by a table of live
  interval tasks inside `ContentState`; a callback of a cleared interval
  never fires, which `tickFire` renders as a no-op on unknown ids;
* DOM presence of the panel and the persisted `isPanelVisible` flag are
  two booleans in `PanelState`.
-/

/-- JavaScript `Math.trunc`-style truncation used by the `%` operator. -/
def jsTrunc (q : ℚ) : ℤ :=
  if q < 0 then Int.ceil q else Int.floor q

/-- JavaScript remainder `a % b` (truncated division); on the nonnegative
operands used in this program it agrees with flooring division. -/
def jsMod (a b : ℚ) : ℚ :=
  a - b * (jsTrunc (a / b) : ℤ)

/-- JavaScript `Math.round`: round half toward positive infinity, which on
nonnegative inputs is round half away from zero. -/
def jsRound (q : ℚ) : ℤ :=
  Int.floor (q + 1 / 2)

/-- Prepend a character to the first chunk of a split result (helper for
`jsSplitColon`). -/
def consHead (c : Char) : List (List Char) → List (List Char)
  | [] => [[c]]
  | h :: t => (c :: h) :: t

/-- JavaScript `s.split(":")` on the character list of `s`:
`"".split(":") = [""]`, separators produce empty chunks. -/
def jsSplitColon : List Char → List (List Char)
  | [] => [[]]
  | c :: rest =>
      if c = ':' then [] :: jsSplitColon rest
      else consHead c (jsSplitColon rest)

/-- Decimal value of a digit string; agrees with JavaScript `Number(s)`
on strings made of the digits 0-9 (the only use in the source, after
`isValidHMSFormat` has validated the input). -/
def digitsToNat (l : List Char) : ℕ :=
  l.foldl (fun a c => a * 10 + (c.toNat - 48)) 0

/-- One pass of the `while (parts.length < 3) parts.unshift(0)` loop with
an explicit iteration bound (each pass grows the list, so three passes
always reach the exit condition). -/
def unshiftLoop : ℕ → List ℕ → List ℕ
  | 0, l => l
  | n + 1, l => if l.length < 3 then unshiftLoop n (0 :: l) else l

/-- The `while (parts.length < 3) parts.unshift(0)` loop of
`timestampToArray` / `arrayToTimestamp`. -/
def unshiftZeros (l : List ℕ) : List ℕ :=
  unshiftLoop 3 l

/-- JavaScript `String(n).padStart(2, "0")` for the already-rendered
string: pad with zeros on the left up to width 2. -/
def padStart2 (s : String) : String :=
  if s.length ≥ 2 then s else String.mk (List.replicate (2 - s.length) '0') ++ s

/-- `isValidHMSFormat` (source lines 16-20): the regex
`^(\d+:\d\x7b2\x7d:\d\x7b2\x7d|\d\x7b1,2\x7d:\d\x7b2\x7d)$` phrased over the
colon-split chunks: either three chunks (hours nonempty digits, minutes and
seconds exactly two digits) or two chunks (minutes one or two digits, seconds
exactly two digits). -/
def isValidHMSFormat (s : String) : Bool :=
  match jsSplitColon s.toList with
  | [h, m, c] =>
      decide (1 ≤ h.length) && h.all Char.isDigit &&
      decide (m.length = 2) && m.all Char.isDigit &&
      decide (c.length = 2) && c.all Char.isDigit
  | [m, c] =>
      (decide (m.length = 1) || decide (m.length = 2)) && m.all Char.isDigit &&
      decide (c.length = 2) && c.all Char.isDigit
  | _ => false

/-- `timestampToArray` (source lines 27-34): split on `":"`, map `Number`,
left-pad with zeros to `[hours, minutes, seconds]`. -/
def timestampToArray (s : String) : List ℕ :=
  unshiftZeros ((jsSplitColon s.toList).map digitsToNat)

/-- `arrayToTimestamp` (source lines 41-56): pad to three entries, then
render `H:MM:SS` when hours > 0 and `M:SS` otherwise (minutes unpadded in
the second form, seconds always two digits). -/
def arrayToTimestamp (timeArray : List ℕ) : String :=
  match unshiftZeros timeArray with
  | hours :: minutes :: seconds :: _ =>
      if hours > 0 then
        toString hours ++ ":" ++ padStart2 (toString minutes) ++ ":" ++
          padStart2 (toString seconds)
      else
        toString minutes ++ ":" ++ padStart2 (toString seconds)
  | _ => ""

/-- The duration-to-text decomposition of the source (lines 69-73, and
identically lines 297-301): hours by flooring division by 3600, minutes by
flooring the remainder, seconds by `Math.round` of the remainder mod 60,
with no carry of a rounded 60. -/
def formatDuration (dividedSeconds : ℚ) : String :=
  let newHours := Int.floor (dividedSeconds / 3600)
  let remainderAfterHours := jsMod dividedSeconds 3600
  let newMinutes := Int.floor (remainderAfterHours / 60)
  let newSeconds := jsRound (jsMod remainderAfterHours 60)
  arrayToTimestamp [newHours.toNat, newMinutes.toNat, newSeconds.toNat]

/-- `percentageOfTimestamp` (source lines 64-74): the string sentinel
`"number not valid"` outside `[0, 100]`, otherwise the formatted timestamp
of `totalSeconds * (n / 100)`. -/
def percentageOfTimestamp (totalSeconds n : ℚ) : String :=
  if n < 0 ∨ n > 100 then "number not valid"
  else formatDuration (totalSeconds * (n / 100))

/-- The total-seconds computation of the timestamp button handler
(source line 264): `parts[0]*3600 + parts[1]*60 + parts[2]`. -/
def toTotalSeconds (parts : List ℕ) : ℕ :=
  parts.getD 0 0 * 3600 + parts.getD 1 0 * 60 + parts.getD 2 0

/-- Error channel of the percentage button handler. -/
inductive ResolveError where
  | outOfRange
deriving DecidableEq

/-- The percentage button handler's resolution step (source lines 272-280):
reject a percentage outside `[0, 100]` by an early return (no schedule
change), otherwise compute `duration * (percentage / 100)`.  The handler's
`isNaN` guard is vacuous over `ℚ`. -/
def resolvePanel (duration percent : ℚ) : Except ResolveError ℚ :=
  if percent < 0 ∨ percent > 100 then Except.error ResolveError.outOfRange
  else Except.ok (duration * (percent / 100))

/-- A JavaScript number as seen by the scheduler: either a finite value or
`NaN` (reachable for the target when `video.duration` is `NaN`). -/
inductive JSNum where
  | nan
  | num (q : ℚ)
deriving DecidableEq

/-- JavaScript `a >= b`: false whenever either side is `NaN`. -/
def jsGe : JSNum → JSNum → Bool
  | JSNum.num a, JSNum.num b => decide (b ≤ a)
  | _, _ => false

/-- The content script's scheduler state: the `pauseIntervalId` slot, the
runtime's table of live intervals (id paired with the captured
`targetTime`), a fresh-id counter, and whether `findVideo()` finds a
video element. -/
structure ContentState where
  pauseIntervalId : Option ℕ
  tasks : List (ℕ × JSNum)
  nextId : ℕ
  videoPresent : Bool
deriving DecidableEq

/-- `stopPauseTimer` (source lines 89-95): when the slot is non-null,
`clearInterval` the stored id (removing that interval from the runtime)
and null the slot; otherwise do nothing. -/
def stopPauseTimer (st : ContentState) : ContentState :=
  match st.pauseIntervalId with
  | some id =>
      { st with pauseIntervalId := none,
                tasks := st.tasks.filter (fun p => p.1 ≠ id) }
  | none => st

/-- `startPauseTimer` (source lines 101-121): always `stopPauseTimer`
first; if no video element is found, return with no new task; otherwise
`setInterval` a fresh polling task bound to `targetTime` and store its id. -/
def startPauseTimer (st : ContentState) (targetTime : JSNum) : ContentState :=
  let st1 := stopPauseTimer st
  if st1.videoPresent = false then st1
  else
    { st1 with pauseIntervalId := some st1.nextId,
               tasks := st1.tasks ++ [(st1.nextId, targetTime)],
               nextId := st1.nextId + 1 }

/-- One firing of an interval callback (source lines 112-120).  A callback
belonging to an id absent from the live table was cleared and can never
fire, hence the no-op branch.  Otherwise, when
`video.currentTime >= targetTime`, the video is paused (the returned
boolean) and `stopPauseTimer()` runs; else nothing changes. -/
def tickFire (st : ContentState) (id : ℕ) (currentTime : JSNum) :
    ContentState × Bool :=
  match st.tasks.find? (fun p => p.1 = id) with
  | none => (st, false)
  | some task =>
      if jsGe currentTime task.2 then (stopPauseTimer st, true)
      else (st, false)

/-- Reachable-state invariant of the scheduler: every live id is below the
fresh counter, and the live table is empty when the slot is null and the
singleton of the slot's id when it is not. -/
def SchedInv (st : ContentState) : Prop :=
  (∀ p ∈ st.tasks, p.1 < st.nextId) ∧
  (match st.pauseIntervalId with
   | none => st.tasks = []
   | some i => ∃ tg, st.tasks = [(i, tg)])

/-- DOM presence of the panel and the persisted `isPanelVisible` flag. -/
structure PanelState where
  panelInDom : Bool
  storedVisible : Bool
deriving DecidableEq

/-- `injectPanel` (source lines 126-130, 225): a no-op when the panel
element already exists, otherwise append it to the document; storage is
not touched. -/
def injectPanel (st : PanelState) : PanelState :=
  if st.panelInDom then st else { st with panelInDom := true }

/-- The `togglePanel` message handler (source lines 315-326): when the
panel exists, remove it and persist `false`; otherwise `injectPanel` and
persist `true`. -/
def togglePanel (st : PanelState) : PanelState :=
  if st.panelInDom then { panelInDom := false, storedVisible := false }
  else { injectPanel st with storedVisible := true }

/-- Prepend a chunk to the head of a split result (proof-layer helper used
to describe `jsSplitColon` on an appended list). -/
def consHeadL (a : List Char) : List (List Char) → List (List Char)
  | [] => [a]
  | h :: t => (a ++ h) :: t

/-- Inverse of `jsSplitColon`: re-join chunks with `':'` (proof-layer
helper, the JavaScript `parts.join(":")`). -/
def joinColon : List (List Char) → List Char
  | [] => []
  | [x] => x
  | x :: y :: r => x ++ ':' :: joinColon (y :: r)

/-- The canonical rendering of a two-part timestamp: minutes without
leading zeros, seconds zero-padded to two digits (the `M:SS` branch of
`arrayToTimestamp`). -/
def renderTwoPart (m s : ℕ) : String :=
  toString m ++ ":" ++ padStart2 (toString s)

/-- The round trip of the specification: parse a timestamp string
(`timestampToArray`), take its total seconds (line 264), format the result
(the decomposition of lines 69-73 / 297-301). -/
def roundTrip (s : String) : String :=
  formatDuration ((toTotalSeconds (timestampToArray s) : ℕ) : ℚ)

/-- The two textual shapes of the specification, stated as verbatim
decompositions of the character list: `H:MM:SS` (one or more hour digits,
exactly two minute and two second digits) or `M:SS` / `MM:SS` (one or two
minute digits, exactly two second digits). -/
def HMSShape (s : String) : Prop :=
  (∃ h m c : List Char,
      s.toList = h ++ ':' :: (m ++ ':' :: c) ∧
      h ≠ [] ∧ (∀ d ∈ h, d.isDigit) ∧
      m.length = 2 ∧ (∀ d ∈ m, d.isDigit) ∧
      c.length = 2 ∧ (∀ d ∈ c, d.isDigit)) ∨
  (∃ m c : List Char,
      s.toList = m ++ ':' :: c ∧
      (m.length = 1 ∨ m.length = 2) ∧ (∀ d ∈ m, d.isDigit) ∧
      c.length = 2 ∧ (∀ d ∈ c, d.isDigit))

/-! ### Scheduler helper lemmas -/

/-- `stopPauseTimer` keeps the video handle. -/
theorem stopPauseTimer_videoPresent (st : ContentState) :
    (stopPauseTimer st).videoPresent = st.videoPresent := by
  cases h : st.pauseIntervalId <;> simp [stopPauseTimer, h]

/-- `stopPauseTimer` allocates no interval id. -/
theorem stopPauseTimer_nextId (st : ContentState) :
    (stopPauseTimer st).nextId = st.nextId := by
  cases h : st.pauseIntervalId <;> simp [stopPauseTimer, h]

/-- After `stopPauseTimer` the slot is always null. -/
theorem stopPauseTimer_slot (st : ContentState) :
    (stopPauseTimer st).pauseIntervalId = none := by
  cases h : st.pauseIntervalId <;> simp [stopPauseTimer, h]

/-- From a reachable state, `stopPauseTimer` leaves no live interval. -/
theorem stopPauseTimer_tasks (st : ContentState) (hinv : SchedInv st) :
    (stopPauseTimer st).tasks = [] := by
  obtain ⟨-, h2⟩ := hinv
  cases h : st.pauseIntervalId with
  | none => rw [h] at h2; simp [stopPauseTimer, h, h2]
  | some i =>
      rw [h] at h2
      obtain ⟨tg, htg⟩ := h2
      simp [stopPauseTimer, h, htg]

/-- From a reachable state with a video present, `startPauseTimer` arms
exactly one fresh polling task bound to the requested target. -/
theorem startPauseTimer_armed (st : ContentState) (x : JSNum)
    (hv : st.videoPresent = true) (hinv : SchedInv st) :
    startPauseTimer st x =
      ContentState.mk (some st.nextId) [(st.nextId, x)] (st.nextId + 1) true := by
  have h1 := stopPauseTimer_videoPresent st
  have h2 := stopPauseTimer_nextId st
  have h3 := stopPauseTimer_tasks st hinv
  simp only [startPauseTimer, h1, hv]
  cases hstop : stopPauseTimer st with
  | mk a b c d =>
      rw [hstop] at h1 h2 h3
      simp at h1 h2 h3
      simp [h1, h2, h3, hv]

/-- The armed state produced by `startPauseTimer` is itself reachable. -/
theorem SchedInv_armed (i : ℕ) (x : JSNum) :
    SchedInv (ContentState.mk (some i) [(i, x)] (i + 1) true) := by
  constructor
  · intro p hp
    simp at hp
    subst hp
    simp
  · exact ⟨x, rfl⟩

/-! ### Claim theorems: scheduler -/

/-- C1: scheduling a second target invalidates the first task inside the
second call: after `startPauseTimer t1; startPauseTimer t2`, only the task
bound to `t2` is live, and a tick of the first task's interval id is a
no-op (no pause) for every playback position, even one past `t1`. -/
theorem C1_reschedule_invalidates_previous (st : ContentState) (t1 t2 : JSNum)
    (hinv : SchedInv st) (hv : st.videoPresent = true) :
    (startPauseTimer st t1).pauseIntervalId = some st.nextId ∧
    (startPauseTimer st t1).tasks = [(st.nextId, t1)] ∧
    (startPauseTimer (startPauseTimer st t1) t2).pauseIntervalId =
      some (st.nextId + 1) ∧
    (startPauseTimer (startPauseTimer st t1) t2).tasks = [(st.nextId + 1, t2)] ∧
    (∀ c : JSNum,
      tickFire (startPauseTimer (startPauseTimer st t1) t2) st.nextId c =
        (startPauseTimer (startPauseTimer st t1) t2, false)) := by
  have e1 := startPauseTimer_armed st t1 hv hinv
  have e2 := startPauseTimer_armed
    (ContentState.mk (some st.nextId) [(st.nextId, t1)] (st.nextId + 1) true)
    t2 rfl (SchedInv_armed st.nextId t1)
  simp only [e1, e2]
  simp [tickFire, List.find?, Nat.succ_ne_self]

/-- C1 witness: from the empty scheduler with a video, rescheduling from
target 10 to target 5 leaves the stale tick of the first task inert at
position 100. -/
theorem C1_witness :
    tickFire (startPauseTimer (startPauseTimer
        (ContentState.mk none [] 0 true) (JSNum.num 10)) (JSNum.num 5))
      0 (JSNum.num 100) =
    (startPauseTimer (startPauseTimer
        (ContentState.mk none [] 0 true) (JSNum.num 10)) (JSNum.num 5), false) :=
  (C1_reschedule_invalidates_previous (ContentState.mk none [] 0 true)
    (JSNum.num 10) (JSNum.num 5) ⟨by simp, rfl⟩ rfl).2.2.2.2 (JSNum.num 100)

/-- C3: a poll tick of the armed task pauses exactly once and goes Idle
precisely when the position is at or past the target (the comparison is
`>=`), and changes nothing below the target; a jump far past the target is
the same single pause and single transition. -/
theorem C3_tick_pause_at_or_after_target (st : ContentState) (i : ℕ) (t c : ℚ)
    (hid : st.pauseIntervalId = some i)
    (htasks : st.tasks = [(i, JSNum.num t)]) :
    (t ≤ c → tickFire st i (JSNum.num c) =
      ({ st with pauseIntervalId := none, tasks := [] }, true)) ∧
    (c < t → tickFire st i (JSNum.num c) = (st, false)) := by
  constructor
  · intro hge
    simp [tickFire, htasks, List.find?, jsGe, hge, stopPauseTimer, hid]
  · intro hlt
    simp [tickFire, htasks, List.find?, jsGe, not_le.mpr hlt]

/-- C3 witness: with the task armed at target 30, a tick at position 500
(a seek far past the target) pauses and cancels, and a tick at position 10
changes nothing. -/
theorem C3_witness :
    tickFire (ContentState.mk (some 7) [(7, JSNum.num 30)] 8 true)
        7 (JSNum.num 500) =
      (ContentState.mk none [] 8 true, true) ∧
    tickFire (ContentState.mk (some 7) [(7, JSNum.num 30)] 8 true)
        7 (JSNum.num 10) =
      (ContentState.mk (some 7) [(7, JSNum.num 30)] 8 true, false) :=
  ⟨(C3_tick_pause_at_or_after_target _ 7 30 500 rfl rfl).1 (by norm_num),
   (C3_tick_pause_at_or_after_target _ 7 30 10 rfl rfl).2 (by norm_num)⟩

/-- C6: with no video source, `startPauseTimer` is exactly the cancel of
the previous task: the slot ends null, no interval id is allocated, no new
task is created (every surviving task was already live), and the call
returns normally without issuing any pause. -/
theorem C6_schedule_no_video_noop (st : ContentState) (t : JSNum)
    (hv : st.videoPresent = false) :
    startPauseTimer st t = stopPauseTimer st ∧
    (startPauseTimer st t).pauseIntervalId = none ∧
    (startPauseTimer st t).nextId = st.nextId ∧
    ∀ p ∈ (startPauseTimer st t).tasks, p ∈ st.tasks := by
  have h1 := stopPauseTimer_videoPresent st
  have heq : startPauseTimer st t = stopPauseTimer st := by
    simp [startPauseTimer, h1, hv]
  refine ⟨heq, ?_, ?_, ?_⟩
  · rw [heq]; exact stopPauseTimer_slot st
  · rw [heq]; exact stopPauseTimer_nextId st
  · rw [heq]
    intro p hp
    cases h : st.pauseIntervalId with
    | none => rw [stopPauseTimer, h] at hp; exact hp
    | some i =>
        rw [stopPauseTimer, h] at hp
        simp at hp
        exact hp.1

/-- C6 witness: scheduling while armed but with the video gone cancels the
old task, allocates nothing, and arms nothing. -/
theorem C6_witness :
    startPauseTimer (ContentState.mk (some 3) [(3, JSNum.num 9)] 4 false)
        (JSNum.num 42) =
      stopPauseTimer (ContentState.mk (some 3) [(3, JSNum.num 9)] 4 false) ∧
    (startPauseTimer (ContentState.mk (some 3) [(3, JSNum.num 9)] 4 false)
        (JSNum.num 42)).pauseIntervalId = none :=
  ⟨(C6_schedule_no_video_noop _ (JSNum.num 42) rfl).1,
   (C6_schedule_no_video_noop _ (JSNum.num 42) rfl).2.1⟩

/-- C8: cancel is idempotent: it always leaves the slot null, running it
twice equals running it once, and from Idle it is a no-op. -/
theorem C8_cancel_idempotent (st : ContentState) :
    (stopPauseTimer st).pauseIntervalId = none ∧
    stopPauseTimer (stopPauseTimer st) = stopPauseTimer st ∧
    (st.pauseIntervalId = none → stopPauseTimer st = st) := by
  refine ⟨stopPauseTimer_slot st, ?_, ?_⟩
  · have h := stopPauseTimer_slot st
    cases hstop : stopPauseTimer st with
    | mk a b c d =>
        rw [hstop] at h
        simp at h
        simp [stopPauseTimer, h]
  · intro h
    simp [stopPauseTimer, h]

/-- C8 witness: cancelling twice from an armed state errors nowhere and
leaves the slot null both times; cancelling from Idle is the identity. -/
theorem C8_witness :
    stopPauseTimer (stopPauseTimer
        (ContentState.mk (some 2) [(2, JSNum.num 4)] 3 true)) =
      stopPauseTimer (ContentState.mk (some 2) [(2, JSNum.num 4)] 3 true) ∧
    stopPauseTimer (ContentState.mk none [] 3 true) =
      ContentState.mk none [] 3 true :=
  ⟨(C8_cancel_idempotent (ContentState.mk (some 2) [(2, JSNum.num 4)] 3 true)).2.1,
   (C8_cancel_idempotent (ContentState.mk none [] 3 true)).2.2 rfl⟩

/-- C10: `startPauseTimer` never validates its target: any target
(negative or NaN alike) arms a task when a video is present; a negative
target makes the very first tick pause at any nonnegative position, while
a NaN target arms a task whose `>=` comparison never holds, so every tick
leaves it armed and unpaused. -/
theorem C10_schedule_unvalidated_target (st : ContentState) (x : JSNum)
    (hv : st.videoPresent = true) (hinv : SchedInv st) :
    (startPauseTimer st x).pauseIntervalId = some st.nextId ∧
    (∀ t c : ℚ, t < 0 → 0 ≤ c →
      tickFire (startPauseTimer st (JSNum.num t)) st.nextId (JSNum.num c) =
        (stopPauseTimer (startPauseTimer st (JSNum.num t)), true)) ∧
    (∀ c : JSNum,
      tickFire (startPauseTimer st JSNum.nan) st.nextId c =
        (startPauseTimer st JSNum.nan, false)) := by
  refine ⟨?_, ?_, ?_⟩
  · rw [startPauseTimer_armed st x hv hinv]
  · intro t c ht hc
    rw [startPauseTimer_armed st (JSNum.num t) hv hinv]
    have : t ≤ c := le_trans ht.le hc
    simp [tickFire, List.find?, jsGe, this]
  · intro c
    rw [startPauseTimer_armed st JSNum.nan hv hinv]
    cases c <;> simp [tickFire, List.find?, jsGe]

/-- C10 witness: from the empty scheduler with a video, target -5 is
accepted and the first tick at position 0 pauses; target NaN is accepted
and a tick at position 1000 changes nothing. -/
theorem C10_witness :
    tickFire (startPauseTimer (ContentState.mk none [] 0 true)
        (JSNum.num (-5))) 0 (JSNum.num 0) =
      (stopPauseTimer (startPauseTimer (ContentState.mk none [] 0 true)
        (JSNum.num (-5))), true) ∧
    tickFire (startPauseTimer (ContentState.mk none [] 0 true) JSNum.nan)
        0 (JSNum.num 1000) =
      (startPauseTimer (ContentState.mk none [] 0 true) JSNum.nan, false) :=
  ⟨(C10_schedule_unvalidated_target (ContentState.mk none [] 0 true)
      (JSNum.num (-5)) rfl ⟨by simp, rfl⟩).2.1 (-5) 0 (by norm_num) le_rfl,
   (C10_schedule_unvalidated_target (ContentState.mk none [] 0 true)
      JSNum.nan rfl ⟨by simp, rfl⟩).2.2 (JSNum.num 1000)⟩

/-! ### Claim theorems: panel toggling -/

/-- C9: one `togglePanel` command flips DOM presence and rewrites the
persisted flag in the same handler invocation, so after any positive
number of toggles the flag equals DOM presence. -/
theorem C9_toggle_lockstep (st : PanelState) :
    (togglePanel st).panelInDom = !st.panelInDom ∧
    (togglePanel st).storedVisible = (togglePanel st).panelInDom ∧
    (∀ n : ℕ, 0 < n →
      (togglePanel^[n] st).storedVisible = (togglePanel^[n] st).panelInDom) := by
  have step : ∀ q : PanelState,
      (togglePanel q).storedVisible = (togglePanel q).panelInDom := by
    intro q
    cases hq : q.panelInDom <;> simp [togglePanel, injectPanel, hq]
  refine ⟨?_, step st, ?_⟩
  · cases hq : st.panelInDom <;> simp [togglePanel, injectPanel, hq]
  · intro n hn
    obtain ⟨k, rfl⟩ : ∃ k, n = k + 1 := ⟨n - 1, by omega⟩
    rw [Function.iterate_succ_apply']
    exact step _

/-- C9 witness: toggling twice from a drifted state (panel absent, flag
true) restores lockstep at each step. -/
theorem C9_witness :
    (togglePanel (PanelState.mk false true)).storedVisible =
      (togglePanel (PanelState.mk false true)).panelInDom ∧
    (togglePanel^[2] (PanelState.mk false true)).storedVisible =
      (togglePanel^[2] (PanelState.mk false true)).panelInDom :=
  ⟨(C9_toggle_lockstep (PanelState.mk false true)).2.1,
   (C9_toggle_lockstep (PanelState.mk false true)).2.2 2 (by norm_num)⟩

/-! ### Arithmetic helper lemmas for the duration decomposition -/

/-- On nonnegative input, JavaScript truncation is the floor. -/
theorem jsTrunc_of_nonneg (q : ℚ) (h : 0 ≤ q) : jsTrunc q = ⌊q⌋ := by
  unfold jsTrunc
  rw [if_neg (not_lt.mpr h)]

/-- On the nonnegative operands of this program, `jsMod` is the flooring
remainder. -/
theorem jsMod_of_nonneg (a b : ℚ) (ha : 0 ≤ a) (hb : 0 < b) :
    jsMod a b = a - b * ⌊a / b⌋ := by
  unfold jsMod
  rw [jsTrunc_of_nonneg _ (div_nonneg ha hb.le)]

/-- Flooring a quotient by a positive natural pinned between consecutive
multiples. -/
theorem floor_div_nat_eq (q : ℚ) (k n : ℕ) (hk : 0 < (k : ℚ))
    (h1 : (k : ℚ) * n ≤ q) (h2 : q < (k : ℚ) * (n + 1)) :
    ⌊q / (k : ℚ)⌋ = (n : ℤ) := by
  rw [Int.floor_eq_iff]
  constructor
  · rw [le_div_iff₀ hk]
    push_cast
    linarith
  · rw [div_lt_iff₀ hk]
    push_cast
    linarith

/-- `Math.round` of an integral number of seconds is that number. -/
theorem jsRound_natCast (s : ℕ) : jsRound (s : ℚ) = (s : ℤ) := by
  unfold jsRound
  have h0 : ⌊(1 : ℚ) / 2⌋ = 0 := by
    rw [Int.floor_eq_iff]
    constructor <;> norm_num
  have : ((s : ℚ)) = ((s : ℤ) : ℚ) := by push_cast; ring
  rw [this, Int.floor_int_add, h0, add_zero]

/-- Master decomposition of the source's duration-to-text logic: on a
total of `h` hours, `m` minutes and a residue `r` of less than a minute,
it renders `arrayToTimestamp [h, m, round r]`, with no carry applied to
the rounded seconds. -/
theorem formatDuration_decomp (h m : ℕ) (r : ℚ) (hm : m ≤ 59)
    (hr0 : 0 ≤ r) (hrlt : r < 60) :
    formatDuration (3600 * h + 60 * m + r) =
      arrayToTimestamp [h, m, (jsRound r).toNat] := by
  have hmq : (m : ℚ) ≤ 59 := by exact_mod_cast hm
  have hx0 : (0 : ℚ) ≤ 3600 * h + 60 * m + r := by positivity
  have hf1 : ⌊(3600 * (h : ℚ) + 60 * m + r) / 3600⌋ = (h : ℤ) := by
    apply floor_div_nat_eq _ 3600 h (by norm_num)
    · push_cast
      have : (0 : ℚ) ≤ (m : ℚ) := by positivity
      linarith
    · push_cast
      linarith
  have hmod1 : jsMod (3600 * (h : ℚ) + 60 * m + r) 3600 = 60 * m + r := by
    rw [jsMod_of_nonneg _ _ hx0 (by norm_num), hf1]
    push_cast
    ring
  have hy0 : (0 : ℚ) ≤ 60 * m + r := by positivity
  have hf2 : ⌊(60 * (m : ℚ) + r) / 60⌋ = (m : ℤ) := by
    apply floor_div_nat_eq _ 60 m (by norm_num)
    · push_cast
      linarith
    · push_cast
      linarith
  have hmod2 : jsMod (60 * (m : ℚ) + r) 60 = r := by
    rw [jsMod_of_nonneg _ _ hy0 (by norm_num), hf2]
    push_cast
    ring
  simp only [formatDuration]
  rw [hmod1, hf1, hf2, hmod2]
  simp

/-- `arrayToTimestamp` on an explicit zero-hours triple is the two-part
rendering. -/
theorem arrayToTimestamp_two_part (m s : ℕ) :
    arrayToTimestamp [0, m, s] = renderTwoPart m s := by
  simp [arrayToTimestamp, unshiftZeros, unshiftLoop, renderTwoPart]

/-! ### Claim theorems: formatting and percentages -/

/-- C2 (code bug evaluation): the source's formatting carries nothing:
at 59.6 seconds it emits the invalid field `"0:60"` instead of the
specified `"1:00"`, while at 3661 seconds it does produce `"1:01:01"`. -/
theorem C2_format_no_carry_eval :
    formatDuration (59.6 : ℚ) = "0:60" ∧ formatDuration (3661 : ℚ) = "1:01:01" := by
  constructor
  · have harg : (59.6 : ℚ) = 3600 * (0 : ℕ) + 60 * (0 : ℕ) + 59.6 := by norm_num
    have hround : jsRound (59.6 : ℚ) = 60 := by
      unfold jsRound
      rw [Int.floor_eq_iff]
      constructor <;> norm_num
    rw [harg, formatDuration_decomp 0 0 59.6 (by norm_num) (by norm_num) (by norm_num),
      hround]
    decide
  · have harg : (3661 : ℚ) = 3600 * (1 : ℕ) + 60 * (1 : ℕ) + (1 : ℕ) := by norm_num
    rw [harg, formatDuration_decomp 1 1 ((1 : ℕ) : ℚ) (by norm_num) (by positivity)
      (by norm_num), jsRound_natCast]
    decide

/-- C5 counterexample: the source's percentage resolver answers in its
string channel: in range it returns the formatted timestamp `"0:50"`
rather than the number 50, and out of range it returns the sentinel string
`"number not valid"` rather than a distinct error value. -/
theorem C5_resolve_string_sentinel :
    percentageOfTimestamp 100 50 = "0:50" ∧
    percentageOfTimestamp 100 101 = "number not valid" := by
  constructor
  · have h1 : ¬((50 : ℚ) < 0 ∨ (50 : ℚ) > 100) := by norm_num
    rw [percentageOfTimestamp, if_neg h1]
    have harg : (100 : ℚ) * (50 / 100) = 3600 * (0 : ℕ) + 60 * (0 : ℕ) + (50 : ℕ) := by
      norm_num
    rw [harg, formatDuration_decomp 0 0 ((50 : ℕ) : ℚ) (by norm_num) (by positivity)
      (by norm_num), jsRound_natCast]
    decide
  · rw [percentageOfTimestamp, if_pos (by norm_num)]

/-- C5 (amended): the percentage logic rejects exactly the percentages
outside `[0, 100]` — `percentageOfTimestamp` by the sentinel string, the
panel handler by its error return — and otherwise resolves to
`totalDuration * (percent / 100)` (formatted by the former, numeric in the
latter); in particular the panel handler resolves `(100, 50)` to `50`. -/
theorem C5_resolve_amended :
    (∀ t n : ℚ,
      ((n < 0 ∨ 100 < n) →
        percentageOfTimestamp t n = "number not valid" ∧
        resolvePanel t n = Except.error ResolveError.outOfRange) ∧
      (0 ≤ n → n ≤ 100 →
        percentageOfTimestamp t n = formatDuration (t * (n / 100)) ∧
        resolvePanel t n = Except.ok (t * (n / 100)))) ∧
    resolvePanel 100 50 = Except.ok 50 ∧
    resolvePanel 100 (-1) = Except.error ResolveError.outOfRange ∧
    resolvePanel 100 101 = Except.error ResolveError.outOfRange := by
  refine ⟨?_, ?_, ?_, ?_⟩
  · intro t n
    constructor
    · intro hn
      constructor
      · rw [percentageOfTimestamp, if_pos (by tauto)]
      · rw [resolvePanel, if_pos (by tauto)]
    · intro h0 h100
      have hn : ¬(n < 0 ∨ n > 100) := by
        push_neg
        exact ⟨h0, h100⟩
      constructor
      · rw [percentageOfTimestamp, if_neg hn]
      · rw [resolvePanel, if_neg hn]
  · rw [resolvePanel, if_neg (by norm_num)]
    norm_num
  · rw [resolvePanel, if_pos (by norm_num)]
  · rw [resolvePanel, if_pos (by norm_num)]

/-- C5 witness: the amended range characterization applied at percent 101
and at percent 50 of a 100-second duration. -/
theorem C5_witness :
    percentageOfTimestamp 100 101 = "number not valid" ∧
    percentageOfTimestamp 100 50 = formatDuration (100 * (50 / 100)) :=
  ⟨(((C5_resolve_amended.1 100 101).1 (Or.inr (by norm_num))).1),
   (((C5_resolve_amended.1 100 50).2 (by norm_num) (by norm_num)).1)⟩

/-- Parsing the canonical two-part rendering recovers the zero-hours
triple, checked over the whole canonical range. -/
theorem timestampToArray_renderTwoPart :
    ∀ m : Fin 60, ∀ s : Fin 60,
      timestampToArray (renderTwoPart m.1 s.1) = [0, m.1, s.1] := by
  decide

/-! ### Claim theorems: the round trip -/

/-- C7 counterexample: `"05:30"` is syntactically valid with canonical
fields, yet the round trip returns `"5:30"`, not `"05:30"`: a leading
zero in the minutes field breaks the round trip. -/
theorem C7_roundtrip_leading_zero_cex :
    isValidHMSFormat "05:30" = true ∧
    timestampToArray "05:30" = [0, 5, 30] ∧
    roundTrip "05:30" = "5:30" ∧
    "5:30" ≠ "05:30" := by
  refine ⟨by decide, by decide, ?_, by decide⟩
  have h1 : timestampToArray "05:30" = [0, 5, 30] := by decide
  rw [roundTrip, h1]
  have h2 : toTotalSeconds [0, 5, 30] = 330 := by decide
  rw [h2]
  have harg : ((330 : ℕ) : ℚ) = 3600 * ((0 : ℕ) : ℚ) + 60 * ((5 : ℕ) : ℚ) + ((30 : ℕ) : ℚ) := by
    norm_num
  rw [harg, formatDuration_decomp 0 5 ((30 : ℕ) : ℚ) (by norm_num) (by positivity)
    (by norm_num), jsRound_natCast]
  decide

/-- C7 (amended): the round trip `format (toTotalSeconds (parse x)) = x`
holds for every two-part timestamp with canonical fields whose minutes
carry no leading zero, i.e. every string `M:SS` with the minutes rendered
as `toString m` for some `m ≤ 59` and two-digit seconds `s ≤ 59`. -/
theorem C7_roundtrip_amended (m s : ℕ) (hm : m ≤ 59) (hs : s ≤ 59) :
    roundTrip (renderTwoPart m s) = renderTwoPart m s := by
  have h1 : timestampToArray (renderTwoPart m s) = [0, m, s] :=
    timestampToArray_renderTwoPart ⟨m, by omega⟩ ⟨s, by omega⟩
  rw [roundTrip, h1]
  have h2 : toTotalSeconds [0, m, s] = m * 60 + s := by
    simp [toTotalSeconds]
  rw [h2]
  have hlt : ((s : ℕ) : ℚ) < 60 := by
    have : ((s : ℕ) : ℚ) ≤ 59 := by exact_mod_cast hs
    linarith
  have harg : ((m * 60 + s : ℕ) : ℚ) =
      3600 * ((0 : ℕ) : ℚ) + 60 * ((m : ℕ) : ℚ) + ((s : ℕ) : ℚ) := by
    push_cast
    ring
  rw [harg, formatDuration_decomp 0 m ((s : ℕ) : ℚ) hm (by positivity) hlt,
    jsRound_natCast]
  rw [Int.toNat_natCast, arrayToTimestamp_two_part]

/-- C7 witness: the amended round trip at the counterexample's value
without the leading zero: `"5:30"` survives the round trip. -/
theorem C7_witness : roundTrip (renderTwoPart 5 30) = renderTwoPart 5 30 :=
  C7_roundtrip_amended 5 30 (by norm_num) (by norm_num)

/-! ### Split lemmas for the format characterization -/

/-- A split never produces an empty chunk list. -/
theorem jsSplitColon_ne_nil (cs : List Char) : jsSplitColon cs ≠ [] := by
  induction cs with
  | nil => simp [jsSplitColon]
  | cons c rest ih =>
      simp only [jsSplitColon]
      split
      · simp
      · cases h : jsSplitColon rest with
        | nil => exact absurd h ih
        | cons a t => simp [consHead]

/-- Splitting after a colon-free prefix prepends the prefix to the head
chunk. -/
theorem jsSplitColon_append (a b : List Char) (ha : ∀ c ∈ a, c ≠ ':') :
    jsSplitColon (a ++ b) = consHeadL a (jsSplitColon b) := by
  induction a with
  | nil =>
      cases hb : jsSplitColon b with
      | nil => exact absurd hb (jsSplitColon_ne_nil b)
      | cons h t => simp [consHeadL, hb]
  | cons c a2 ih =>
      have hc : c ≠ ':' := ha c (List.mem_cons_self c a2)
      have ih2 := ih (fun d hd => ha d (List.mem_cons_of_mem c hd))
      simp only [List.cons_append, jsSplitColon, if_neg hc, List.append_eq]
      rw [ih2]
      cases hb : jsSplitColon b with
      | nil => exact absurd hb (jsSplitColon_ne_nil b)
      | cons h t => simp [consHead, consHeadL]

/-- Splitting a colon-free list yields the single chunk. -/
theorem jsSplitColon_no_colon (a : List Char) (ha : ∀ c ∈ a, c ≠ ':') :
    jsSplitColon a = [a] := by
  have h := jsSplitColon_append a [] ha
  simpa [consHeadL, jsSplitColon] using h

/-- Rejoining the chunks with `':'` recovers the input. -/
theorem joinColon_jsSplitColon (cs : List Char) :
    joinColon (jsSplitColon cs) = cs := by
  induction cs with
  | nil => simp [jsSplitColon, joinColon]
  | cons c rest ih =>
      by_cases hc : c = ':'
      · subst hc
        simp only [jsSplitColon, if_pos rfl]
        cases hr : jsSplitColon rest with
        | nil => exact absurd hr (jsSplitColon_ne_nil rest)
        | cons h t =>
            rw [hr] at ih
            simp [joinColon, ih]
      · simp only [jsSplitColon, if_neg hc]
        cases hr : jsSplitColon rest with
        | nil => exact absurd hr (jsSplitColon_ne_nil rest)
        | cons h t =>
            rw [hr] at ih
            cases t with
            | nil =>
                simp only [consHead, joinColon] at ih ⊢
                rw [ih]
            | cons y t2 =>
                simp only [consHead, joinColon, List.cons_append] at ih ⊢
                rw [ih]

/-- A decimal digit is never the separator. -/
theorem digit_ne_colon (d : Char) (hd : d.isDigit = true) : d ≠ ':' := by
  intro h
  subst h
  exact absurd hd (by decide)

/-- The regex check accepts only the two specified shapes. -/
theorem valid_implies_shape (s : String) (hv : isValidHMSFormat s = true) :
    HMSShape s := by
  have hjoin := joinColon_jsSplitColon s.toList
  unfold isValidHMSFormat at hv
  rcases hsp : jsSplitColon s.toList with _ | ⟨a, _ | ⟨b, _ | ⟨c, _ | ⟨d, rest⟩⟩⟩⟩
  · rw [hsp] at hv
    simp at hv
  · rw [hsp] at hv
    simp at hv
  · rw [hsp] at hv
    simp only [Bool.and_eq_true, Bool.or_eq_true, decide_eq_true_eq,
      List.all_eq_true] at hv
    obtain ⟨⟨⟨hlen1, hdig1⟩, hlen2⟩, hdig2⟩ := hv
    right
    refine ⟨a, b, ?_, hlen1, hdig1, hlen2, hdig2⟩
    rw [hsp] at hjoin
    simp only [joinColon] at hjoin
    exact hjoin.symm
  · rw [hsp] at hv
    simp only [Bool.and_eq_true, decide_eq_true_eq, List.all_eq_true] at hv
    obtain ⟨⟨⟨⟨⟨hlen1, hdig1⟩, hlen2⟩, hdig2⟩, hlen3⟩, hdig3⟩ := hv
    left
    refine ⟨a, b, c, ?_, ?_, hdig1, hlen2, hdig2, hlen3, hdig3⟩
    · rw [hsp] at hjoin
      simp only [joinColon] at hjoin
      exact hjoin.symm
    · cases a with
      | nil => simp at hlen1
      | cons x xs => simp
  · rw [hsp] at hv
    simp at hv

/-- Both specified shapes pass the regex check. -/
theorem shape_implies_valid (s : String) (h : HMSShape s) :
    isValidHMSFormat s = true := by
  unfold isValidHMSFormat
  rcases h with ⟨a, b, c, heq, hane, hadig, hblen, hbdig, hclen, hcdig⟩ |
    ⟨b, c, heq, hblen, hbdig, hclen, hcdig⟩
  · have hna : ∀ d ∈ a, d ≠ ':' := fun d hd => digit_ne_colon d (hadig d hd)
    have hnb : ∀ d ∈ b, d ≠ ':' := fun d hd => digit_ne_colon d (hbdig d hd)
    have hnc : ∀ d ∈ c, d ≠ ':' := fun d hd => digit_ne_colon d (hcdig d hd)
    have hsplit : jsSplitColon s.toList = [a, b, c] := by
      rw [heq, jsSplitColon_append a _ hna]
      have h1 : jsSplitColon (':' :: (b ++ ':' :: c)) =
          [] :: jsSplitColon (b ++ ':' :: c) := by
        simp [jsSplitColon]
      rw [h1, jsSplitColon_append b _ hnb]
      have h2 : jsSplitColon (':' :: c) = [] :: jsSplitColon c := by
        simp [jsSplitColon]
      rw [h2, jsSplitColon_no_colon c hnc]
      simp [consHeadL]
    rw [hsplit]
    have h1 : 1 ≤ a.length := by
      cases a with
      | nil => exact absurd rfl hane
      | cons x xs => simp
    simp [h1, hclen, hblen, List.all_eq_true]
    exact ⟨⟨hadig, hbdig⟩, hcdig⟩
  · have hnb : ∀ d ∈ b, d ≠ ':' := fun d hd => digit_ne_colon d (hbdig d hd)
    have hnc : ∀ d ∈ c, d ≠ ':' := fun d hd => digit_ne_colon d (hcdig d hd)
    have hsplit : jsSplitColon s.toList = [b, c] := by
      rw [heq, jsSplitColon_append b _ hnb]
      have h2 : jsSplitColon (':' :: c) = [] :: jsSplitColon c := by
        simp [jsSplitColon]
      rw [h2, jsSplitColon_no_colon c hnc]
      simp [consHeadL]
    rw [hsplit]
    rcases hblen with hb1 | hb2
    · simp [hb1, hclen, List.all_eq_true]
      exact ⟨hbdig, hcdig⟩
    · simp [hb2, hclen, List.all_eq_true]
      exact ⟨hbdig, hcdig⟩

/-! ### Claim theorem: parsing -/

/-- C4: the validator accepts a string exactly when it has one of the two
specified shapes (`H:MM:SS` with one or more hour digits, or `M:SS` /
`MM:SS`); the given malformed strings are rejected, the out-of-range but
well-shaped `"1:60"` is accepted with no range check, and on the two-part
shape the parsed triple has hours = 0. -/
theorem C4_parse_shape_characterization :
    (∀ s : String, isValidHMSFormat s = true ↔ HMSShape s) ∧
    isValidHMSFormat "1:2" = false ∧
    isValidHMSFormat "12:3:45" = false ∧
    isValidHMSFormat "abc" = false ∧
    isValidHMSFormat "" = false ∧
    isValidHMSFormat "1:60" = true ∧
    timestampToArray "1:60" = [0, 1, 60] ∧
    (∀ b c : List Char, (∀ d ∈ b, d.isDigit) → (∀ d ∈ c, d.isDigit) →
      timestampToArray (String.mk (b ++ ':' :: c)) =
        [0, digitsToNat b, digitsToNat c]) := by
  refine ⟨fun s => ⟨valid_implies_shape s, shape_implies_valid s⟩,
    by decide, by decide, by decide, by decide, by decide, by decide, ?_⟩
  intro b c hbdig hcdig
  have hnb : ∀ d ∈ b, d ≠ ':' := fun d hd => digit_ne_colon d (hbdig d hd)
  have hnc : ∀ d ∈ c, d ≠ ':' := fun d hd => digit_ne_colon d (hcdig d hd)
  have hsplit : jsSplitColon (String.mk (b ++ ':' :: c)).toList = [b, c] := by
    show jsSplitColon (b ++ ':' :: c) = [b, c]
    rw [jsSplitColon_append b _ hnb]
    have h2 : jsSplitColon (':' :: c) = [] :: jsSplitColon c := by
      simp [jsSplitColon]
    rw [h2, jsSplitColon_no_colon c hnc]
    simp [consHeadL]
  rw [timestampToArray, hsplit]
  simp [unshiftZeros, unshiftLoop]

/-- C4 witness: the two-part decomposition applied to `"1:60"` gives the
triple with hours 0 and the unchecked seconds field 60. -/
theorem C4_witness :
    timestampToArray (String.mk (['1'] ++ ':' :: ['6', '0'])) =
      [0, digitsToNat ['1'], digitsToNat ['6', '0']] :=
  C4_parse_shape_characterization.2.2.2.2.2.2.2 ['1'] ['6', '0']
    (by decide) (by decide)
